import Mathlib

/-
Verification of the Monte Carlo pi estimator `trabajo_L4_G7.cpp`.

The repository holds two variants of the same program.  Variant 1 uses a
`std::mt19937` generator per thread (8 threads); variant 2 uses per-thread
`srand`/`rand` streams (4 threads).  Both share the sequential sampler,
the CSV writer and the driver structure.

Modelling conventions:
  * IEEE doubles are modelled by the exact rationals `Rat`; the program only
    forms `4.0 * count / samples` and unit conversions, so the rational value
    is the ideal value the float computation approximates.
  * The C `rand()` stream is an abstract function `rng : Nat -> Nat`; each
    call returns `rng k % (RAND_MAX + 1)` for the k-th call, matching the
    contract that `rand()` yields an integer in `[0, RAND_MAX]`.
  * The per-thread generator streams of the parallel samplers (mt19937 with
    `uniform_real_distribution`, or per-thread `rand`) are abstracted as a
    family `vals : Nat -> Nat -> Rat` giving the k-th value drawn by thread t.
  * `long long` is `Int` (value range [-2^63, 2^63)); `unsigned long long`
    comparisons reduce the signed value modulo 2^64, as in the C conversion
    rules.
  * The CSV file is a list of lines; the console is a list of printed lines;
    `fstream` open success is an explicit boolean input.
-/

/-- Value of `RAND_MAX` (glibc): 2^31 - 1. -/
def RAND_MAX_C : ℕ := 2147483647

/-- The value `((double)rand()) / ((double)RAND_MAX)` of the k-th call of the
stream `rng`: the raw integer is reduced into `[0, RAND_MAX]` and divided. -/
def valor_rand (rng : ℕ → ℕ) (k : ℕ) : ℚ :=
  ((rng k % (RAND_MAX_C + 1) : ℕ) : ℚ) / (RAND_MAX_C : ℚ)

/-- The hit predicate `x * x + y * y <= 1.0` shared by every sampler loop. -/
def acierto (x y : ℚ) : Bool :=
  decide (x * x + y * y ≤ 1)

/-- `struct ResultadoMontecarlo` of the source. -/
structure ResultadoMontecarlo where
  pi : ℚ
  tiempo_segundos : ℚ
  tiempo_ms : ℚ
  tiempo_us : ℚ
  samples : ℤ
  es_paralelo : Bool
  num_hilos : ℤ

/-- Trip count of the sequential loop `for (i = 0; i < samples; ++i)` where
`i` is `unsigned long long` and `samples` is `long long`: the comparison
converts `samples` to `unsigned long long`, i.e. reduces it modulo 2^64. -/
def iteraciones_secuencial (samples : ℤ) : ℕ :=
  (samples % (2 ^ 64 : ℤ)).toNat

/-- Trip count of the parallel loop `for (i = 0; i < samples; ++i)` where both
`i` and `samples` are `long long`: no iterations for non-positive `samples`. -/
def iteraciones_paralelo (samples : ℤ) : ℕ :=
  samples.toNat

/-- The sequential sampling loop: iteration `i` draws the stream values
`2*i` and `2*i + 1` (`x` then `y`) and increments the count on a hit.
`bucle_secuencial rng n` is the value of `count` after `n` iterations. -/
def bucle_secuencial (rng : ℕ → ℕ) : ℕ → ℕ
  | 0 => 0
  | n + 1 =>
    bucle_secuencial rng n +
      (if acierto (valor_rand rng (2 * n)) (valor_rand rng (2 * n + 1)) then 1 else 0)

/-- `montecarlo_secuencial`: runs the loop for the converted trip count and
fills the result record; `inicio`/`final` are the two `omp_get_wtime` reads. -/
def montecarlo_secuencial (rng : ℕ → ℕ) (samples : ℤ) (inicio final : ℚ) :
    ResultadoMontecarlo :=
  let count : ℕ := bucle_secuencial rng (iteraciones_secuencial samples)
  let total : ℚ := final - inicio
  { pi := 4 * (count : ℚ) / (samples : ℚ)
    tiempo_segundos := total
    tiempo_ms := total * 1000
    tiempo_us := total * 1000000
    samples := samples
    es_paralelo := false
    num_hilos := 1 }

/-- Static OpenMP partition of `n` iterations over `T` threads: thread `t`
gets `n / T` iterations plus one of the `n % T` leftovers (threads
`0, ..., n % T - 1` get the extra one), in one contiguous block. -/
def longitud_trozo (n T t : ℕ) : ℕ :=
  n / T + (if t < n % T then 1 else 0)

/-- The per-thread block lengths, in thread order. -/
def longitudes (n T : ℕ) : List ℕ :=
  (List.range T).map (longitud_trozo n T)

/-- Contiguous index blocks beginning at `off` with the given lengths. -/
def trozos_aux (off : ℕ) : List ℕ → List (List ℕ)
  | [] => []
  | l :: ls => List.range' off l :: trozos_aux (off + l) ls

/-- The per-thread blocks of loop indices assigned by the static schedule. -/
def trozos (n T : ℕ) : List (List ℕ) :=
  trozos_aux 0 (longitudes n T)

/-- One thread's share of the parallel loop: thread `t` performs `k`
iterations, drawing values `2*j` and `2*j + 1` of its own stream at its
`j`-th local iteration, counting hits into its private partial counter. -/
def bucle_hilo (vals : ℕ → ℕ → ℚ) (t : ℕ) : ℕ → ℕ
  | 0 => 0
  | k + 1 =>
    bucle_hilo vals t k +
      (if acierto (vals t (2 * k)) (vals t (2 * k + 1)) then 1 else 0)

/-- The list of per-thread partial hit counts. -/
def parciales (vals : ℕ → ℕ → ℚ) (n T : ℕ) : List ℕ :=
  (List.range T).map (fun t => bucle_hilo vals t (longitud_trozo n T t))

/-- The `reduction(+:count)` combiner: integer summation of the partials. -/
def reduccion (l : List ℕ) : ℕ :=
  l.sum

/-- Total hit count of the parallel region: the OpenMP runtime folds each
thread's partial counter into the shared `count` as the threads finish. -/
def hits_paralelo (vals : ℕ → ℕ → ℚ) (n T : ℕ) : ℕ :=
  (List.range T).foldl (fun acc t => acc + bucle_hilo vals t (longitud_trozo n T t)) 0

/-- `montecarlo_paralelo`, generic in the thread count `T` that the source
hard-codes (8 in variant 1, 4 in variant 2). -/
def montecarlo_paralelo_gen (vals : ℕ → ℕ → ℚ) (T : ℕ) (samples : ℤ)
    (inicio final : ℚ) : ResultadoMontecarlo :=
  let count : ℕ := hits_paralelo vals (iteraciones_paralelo samples) T
  let total : ℚ := final - inicio
  { pi := 4 * (count : ℚ) / (samples : ℚ)
    tiempo_segundos := total
    tiempo_ms := total * 1000
    tiempo_us := total * 1000000
    samples := samples
    es_paralelo := true
    num_hilos := (T : ℤ) }

/-- Variant 1: `int num_threads = 8`. -/
def montecarlo_paralelo (vals : ℕ → ℕ → ℚ) (samples : ℤ) (inicio final : ℚ) :
    ResultadoMontecarlo :=
  montecarlo_paralelo_gen vals 8 samples inicio final

/-- Variant 2: `int num_threads = 4`. -/
def montecarlo_paralelo_v2 (vals : ℕ → ℕ → ℚ) (samples : ℤ) (inicio final : ℚ) :
    ResultadoMontecarlo :=
  montecarlo_paralelo_gen vals 4 samples inicio final

/-- The golden-ratio constant `0x9e3779b9` of variant 1's seed derivation. -/
def CONSTANTE_DORADA : ℕ := 0x9e3779b9

/-- Variant 1 per-thread seed:
`seed_base ^ (unsigned(tid) + 1) * 0x9e3779b9` in `unsigned int` arithmetic. -/
def semilla_hilo (seed_base : ℕ) (tid : ℕ) : ℕ :=
  seed_base ^^^ ((tid + 1) * CONSTANTE_DORADA % 2 ^ 32)

/-- Variant 2 per-thread seed: `xi[j] = rand() % 10000 + 1`, the `j`-th call
of the shared time-seeded `rand` stream `r`. -/
def semillas_v2 (r : ℕ → ℕ) (j : ℕ) : ℕ :=
  r j % 10000 + 1

/-- Fixed-precision formatting `snprintf("%.*f", precision, valor)` followed
by replacing the decimal point with a comma (the `formatearDecimal` lambda).
The value is scaled, rounded to the nearest integer, and printed with
`precision` fractional digits separated by a comma. -/
def formatearDecimal (valor : ℚ) (precision : ℕ) : String :=
  let escala : ℤ := round (valor * (10 : ℚ) ^ precision)
  let signo : String := if escala < 0 then "-" else ""
  let mag : ℕ := escala.natAbs
  let ent : ℕ := mag / 10 ^ precision
  let frac : ℕ := mag % 10 ^ precision
  let fracStr : String := toString frac
  let ceros : String := String.mk (List.replicate (precision - fracStr.length) '0')
  if precision = 0 then signo ++ toString ent
  else signo ++ toString ent ++ "," ++ ceros ++ fracStr

/-- One data row of the CSV: samples, method label, thread count, pi and the
three time fields, semicolon-separated, with Spanish decimal commas. -/
def fila_csv (r : ResultadoMontecarlo) (metodo : String) : String :=
  toString r.samples ++ ";" ++ metodo ++ ";" ++ toString r.num_hilos ++ ";" ++
    formatearDecimal r.pi 12 ++ ";" ++
    formatearDecimal r.tiempo_segundos 12 ++ ";" ++
    formatearDecimal r.tiempo_ms 8 ++ ";" ++
    formatearDecimal r.tiempo_us 8

/-- The header row written on a fresh file. -/
def cabecera_csv : String :=
  "Samples;Método;Hilos;Valor Pi;Tiempo (s);Tiempo (ms);Tiempo (us)"

/-- The diagnostic printed when the file cannot be opened. -/
def mensaje_error_archivo (nombre : String) : String :=
  "Error: No se pudo abrir el archivo " ++ nombre ++ " para escritura"

/-- `guardar_csv`: `archivo` is the current content of the target file (a list
of lines) and `abierto` tells whether the `open` call succeeded.  Returns the
file content afterwards and the lines printed to the console.  On open
failure nothing is written and the diagnostic is printed; otherwise a fresh
write replaces the file with header plus the two data rows (sequential row
first), and an append write adds the two data rows to the existing content. -/
def guardar_csv (secuencial paralelo : ResultadoMontecarlo) (nombre_archivo : String)
    (primera_escritura : Bool) (abierto : Bool) (archivo : List String) :
    List String × List String :=
  if !abierto then (archivo, [mensaje_error_archivo nombre_archivo])
  else
    let filas := [fila_csv secuencial "Secuencial", fila_csv paralelo "Paralelo"]
    if primera_escritura then (cabecera_csv :: filas, [])
    else (archivo ++ filas, [])

/-- The built-in sample-size list of variant 1's `main`. -/
def tamanos_muestra : List ℤ :=
  [1000, 5000, 10000, 50000, 100000, 500000, 1000000, 5000000, 10000000, 50000000]

/-- The CSV file name of variant 1. -/
def nombre_archivo_v1 : String := "resultados_montecarlo_openmp.csv"

/-- The driver `main`: one optional command-line size (which replaces the
whole list), then for each size run both samplers and call the writer, fresh
on the first iteration and appending afterwards.  `rngs i` / `valss i` are the
random streams consumed at iteration `i`, `abiertos i` tells whether the
writer's `open` succeeds there.  Returns the final file content and the
process exit code, which is the literal `return 0`. -/
def main_montecarlo (arg : Option ℤ) (rngs : ℕ → ℕ → ℕ) (valss : ℕ → ℕ → ℕ → ℚ)
    (abiertos : ℕ → Bool) (archivo0 : List String) : List String × ℤ :=
  let tams : List ℤ := match arg with
    | some v => [v]
    | none => tamanos_muestra
  let archivoFinal := (List.range tams.length).foldl
    (fun archivo i =>
      let samples := tams.getD i 0
      let resultado_secuencial := montecarlo_secuencial (rngs i) samples 0 0
      let resultado_paralelo := montecarlo_paralelo (valss i) samples 0 0
      (guardar_csv resultado_secuencial resultado_paralelo nombre_archivo_v1
        (i == 0) (abiertos i) archivo).1)
    archivo0
  (archivoFinal, 0)

/-- The successive steps of `montecarlo_paralelo`, in program order, used to
state where the seed derivation falls relative to the timed interval. -/
inductive PasoParalelo where
  | configurar_hilos
  | inicia_cronometro
  | genera_semillas
  | region_paralela
  | detiene_cronometro
  | calcula_pi
  deriving BEq, DecidableEq

/-- Statement order of variant 1's `montecarlo_paralelo`: `inicio =
omp_get_wtime()` (line 134) comes before `std::random_device rd; seed_base =
rd()` (lines 137-138) and the per-thread seed derivation inside the parallel
region (line 151). -/
def traza_paralelo : List PasoParalelo :=
  [PasoParalelo.configurar_hilos, PasoParalelo.inicia_cronometro,
   PasoParalelo.genera_semillas, PasoParalelo.region_paralela,
   PasoParalelo.detiene_cronometro, PasoParalelo.calcula_pi]

/-- Statement order of variant 2's `montecarlo_paralelo`: the seed array
`xi[j] = rand() % 10000 + 1` is filled (lines 405-409) before `inicio =
omp_get_wtime()` (line 411). -/
def traza_paralelo_v2 : List PasoParalelo :=
  [PasoParalelo.configurar_hilos, PasoParalelo.genera_semillas,
   PasoParalelo.inicia_cronometro, PasoParalelo.region_paralela,
   PasoParalelo.detiene_cronometro, PasoParalelo.calcula_pi]

/-- Step `a` occurs strictly before step `b` in the trace `tr`. -/
def antes (a b : PasoParalelo) (tr : List PasoParalelo) : Prop :=
  tr.indexOf a < tr.indexOf b

instance (a b : PasoParalelo) (tr : List PasoParalelo) : Decidable (antes a b tr) := by
  unfold antes
  infer_instance

/-- The fallible model of the expression `4.0 * count / samples`: the source
performs no validation, so at `samples = 0` the division is reached with a
zero divisor and no value is defined. -/
def division_pi (cuenta : ℕ) (samples : ℤ) : Option ℚ :=
  if samples = 0 then none
  else some (4 * (cuenta : ℚ) / (samples : ℚ))

/-- Spec-side hit count, following the spec's words: the number of trials
`i < n` whose two consecutive draws from the single stream satisfy the hit
predicate. -/
def aciertos_espec (rng : ℕ → ℕ) (n : ℕ) : ℕ :=
  ((List.range n).filter
    (fun i => acierto (valor_rand rng (2 * i)) (valor_rand rng (2 * i + 1)))).length

/-- The spec's sequential-sampler sentence at a given stream and trial count:
every drawn value lies in the half-open interval `[0, 1)`, and the returned
`pi` field is four times the hit count divided by the trial count. -/
def reclamo_uniforme_01 (rng : ℕ → ℕ) (n : ℕ) : Prop :=
  (∀ k, k < 2 * n → 0 ≤ valor_rand rng k ∧ valor_rand rng k < 1) ∧
  (montecarlo_secuencial rng (n : ℤ) 0 0).pi = 4 * (aciertos_espec rng n : ℚ) / (n : ℚ)

instance (rng : ℕ → ℕ) (n : ℕ) : Decidable (reclamo_uniforme_01 rng n) := by
  unfold reclamo_uniforme_01
  infer_instance

/-- The spec's seed-distinctness sentence for variant 2: distinct workers
always receive distinct seeds, whatever the shared `rand` stream yields. -/
def reclamo_semillas_distintas : Prop :=
  ∀ (r : ℕ → ℕ) (j1 j2 : ℕ), j1 < 4 → j2 < 4 → j1 ≠ j2 →
    semillas_v2 r j1 ≠ semillas_v2 r j2

/-- The spec's timing sentence: in both variants the per-worker seeds are
generated before the first `omp_get_wtime` read. -/
def reclamo_semillas_antes_cronometro : Prop :=
  antes PasoParalelo.genera_semillas PasoParalelo.inicia_cronometro traza_paralelo ∧
  antes PasoParalelo.genera_semillas PasoParalelo.inicia_cronometro traza_paralelo_v2

instance : Decidable reclamo_semillas_antes_cronometro := by
  unfold reclamo_semillas_antes_cronometro
  infer_instance

theorem valor_rand_nonneg (rng : ℕ → ℕ) (k : ℕ) : 0 ≤ valor_rand rng k := by
  unfold valor_rand
  positivity

theorem valor_rand_le_one (rng : ℕ → ℕ) (k : ℕ) : valor_rand rng k ≤ 1 := by
  unfold valor_rand
  rw [div_le_one (by norm_num [RAND_MAX_C])]
  have h : rng k % (RAND_MAX_C + 1) ≤ RAND_MAX_C :=
    Nat.lt_succ_iff.mp (Nat.mod_lt _ (Nat.succ_pos _))
  exact_mod_cast h

theorem iteraciones_secuencial_natCast (n : ℕ) (h : (n : ℤ) < 2 ^ 64) :
    iteraciones_secuencial (n : ℤ) = n := by
  unfold iteraciones_secuencial
  rw [Int.emod_eq_of_lt (by positivity) h]
  simp

theorem iteraciones_paralelo_natCast (n : ℕ) : iteraciones_paralelo (n : ℤ) = n := by
  unfold iteraciones_paralelo
  simp

theorem bucle_secuencial_eq_espec (rng : ℕ → ℕ) (n : ℕ) :
    bucle_secuencial rng n = aciertos_espec rng n := by
  induction n with
  | zero => rfl
  | succ m ih =>
    rw [bucle_secuencial, ih]
    unfold aciertos_espec
    rw [List.range_succ, List.filter_append, List.length_append]
    by_cases h : acierto (valor_rand rng (2 * m)) (valor_rand rng (2 * m + 1)) <;>
      simp [List.filter, h]

theorem bucle_secuencial_le (rng : ℕ → ℕ) (n : ℕ) : bucle_secuencial rng n ≤ n := by
  induction n with
  | zero => exact Nat.le_refl 0
  | succ m ih =>
    rw [bucle_secuencial]
    split <;> omega

theorem bucle_hilo_le (vals : ℕ → ℕ → ℚ) (t k : ℕ) : bucle_hilo vals t k ≤ k := by
  induction k with
  | zero => exact Nat.le_refl 0
  | succ m ih =>
    rw [bucle_hilo]
    split <;> omega

theorem suma_longitudes_aux (q r T : ℕ) :
    ((List.range T).map (fun t => q + if t < r then 1 else 0)).sum = T * q + min r T := by
  induction T with
  | zero => simp
  | succ m ih =>
    rw [List.range_succ, List.map_append, List.sum_append, ih]
    by_cases h : m < r
    · have hmin : min r m = m := by omega
      have hmin2 : min r (m + 1) = m + 1 := by omega
      simp only [List.map_cons, List.map_nil, List.sum_cons, List.sum_nil, if_pos h,
        hmin, hmin2, Nat.succ_mul]
      omega
    · have hmin : min r m = r := by omega
      have hmin2 : min r (m + 1) = r := by omega
      simp only [List.map_cons, List.map_nil, List.sum_cons, List.sum_nil, if_neg h,
        hmin, hmin2, Nat.succ_mul]
      omega

theorem suma_longitudes (n T : ℕ) (hT : 0 < T) : (longitudes n T).sum = n := by
  unfold longitudes longitud_trozo
  rw [suma_longitudes_aux]
  have hlt : n % T < T := Nat.mod_lt n hT
  have hmin : min (n % T) T = n % T := by omega
  rw [hmin]
  exact Nat.div_add_mod n T

theorem foldl_add_eq_sum (f : ℕ → ℕ) (l : List ℕ) :
    ∀ a : ℕ, l.foldl (fun acc t => acc + f t) a = a + (l.map f).sum := by
  induction l with
  | nil => intro a; simp
  | cons x xs ih =>
    intro a
    rw [List.foldl_cons, ih, List.map_cons, List.sum_cons]
    omega

theorem hits_paralelo_eq_reduccion (vals : ℕ → ℕ → ℚ) (n T : ℕ) :
    hits_paralelo vals n T = reduccion (parciales vals n T) := by
  unfold hits_paralelo reduccion parciales
  rw [foldl_add_eq_sum]
  simp

theorem hits_paralelo_le (vals : ℕ → ℕ → ℚ) (n T : ℕ) (hT : 0 < T) :
    hits_paralelo vals n T ≤ n := by
  rw [hits_paralelo_eq_reduccion]
  unfold reduccion parciales
  have h1 : ((List.range T).map (fun t => bucle_hilo vals t (longitud_trozo n T t))).sum
      ≤ ((List.range T).map (fun t => longitud_trozo n T t)).sum :=
    List.sum_le_sum (fun t _ => bucle_hilo_le vals t _)
  have h2 : ((List.range T).map (fun t => longitud_trozo n T t)).sum = n := by
    have h := suma_longitudes n T hT
    unfold longitudes at h
    simpa using h
  omega

theorem pi_formula_en_rango (c n : ℕ) (hc : c ≤ n) (hn : 0 < n) :
    0 ≤ 4 * (c : ℚ) / (n : ℚ) ∧ 4 * (c : ℚ) / (n : ℚ) ≤ 4 := by
  have hnq : (0 : ℚ) < (n : ℚ) := by exact_mod_cast hn
  have hcq : (c : ℚ) ≤ (n : ℚ) := by exact_mod_cast hc
  constructor
  · positivity
  · rw [div_le_iff₀ hnq]
    linarith

theorem trozos_aux_flatten (ls : List ℕ) :
    ∀ off : ℕ, (trozos_aux off ls).flatten = List.range' off ls.sum := by
  induction ls with
  | nil => intro off; simp [trozos_aux]
  | cons l ls ih =>
    intro off
    simp only [trozos_aux, List.flatten_cons, List.sum_cons]
    rw [ih (off + l)]
    have h := List.range'_append off l ls.sum 1
    simp only [one_mul] at h
    rw [h, Nat.add_comm ls.sum l]

theorem dorada_inyectiva_mod :
    ∀ t1 < 8, ∀ t2 < 8, t1 ≠ t2 →
      (t1 + 1) * CONSTANTE_DORADA % 2 ^ 32 ≠ (t2 + 1) * CONSTANTE_DORADA % 2 ^ 32 := by
  decide

/-- C1 (counterexample): the sequential sampler's draws do not always lie in
the half-open interval `[0, 1)`: on the stream that always returns
`RAND_MAX`, the very first draw `rand() / RAND_MAX` equals `1` exactly, so
the spec's sentence fails at that stream with one trial. -/
theorem valor_rand_alcanza_uno : ¬ reclamo_uniforme_01 (fun _ => 2147483647) 1 := by
  intro h
  have h1 := (h.1 0 (by norm_num)).2
  have h2 : valor_rand (fun _ => 2147483647) 0 = 1 := by
    unfold valor_rand RAND_MAX_C
    norm_num
  rw [h2] at h1
  exact absurd h1 (lt_irrefl 1)

/-- C1 (amended): for every stream and every trial count in the `long long`
range, the sequential sampler draws two values per trial from the single
stream, each lying in the closed interval `[0, 1]` (the value `1` is attained
when `rand()` returns `RAND_MAX`), counts a hit exactly when
`x*x + y*y <= 1.0`, and returns a `pi` field equal to `4` times the hit
count divided by the trial count. -/
theorem montecarlo_secuencial_refina_espec (rng : ℕ → ℕ) (n : ℕ)
    (hn : (n : ℤ) < 2 ^ 64) (inicio final : ℚ) :
    (∀ k, 0 ≤ valor_rand rng k ∧ valor_rand rng k ≤ 1) ∧
    (montecarlo_secuencial rng (n : ℤ) inicio final).pi
      = 4 * (aciertos_espec rng n : ℚ) / (n : ℚ) := by
  constructor
  · exact fun k => ⟨valor_rand_nonneg rng k, valor_rand_le_one rng k⟩
  · unfold montecarlo_secuencial
    rw [iteraciones_secuencial_natCast n hn, bucle_secuencial_eq_espec]
    push_cast
    rfl

/-- C1 (witness). -/
theorem montecarlo_secuencial_refina_espec_testigo :
    (∀ k, 0 ≤ valor_rand (fun _ => 0) k ∧ valor_rand (fun _ => 0) k ≤ 1) ∧
    (montecarlo_secuencial (fun _ => 0) ((2 : ℕ) : ℤ) 0 0).pi
      = 4 * (aciertos_espec (fun _ => 0) 2 : ℚ) / ((2 : ℕ) : ℚ) :=
  montecarlo_secuencial_refina_espec (fun _ => 0) 2 (by norm_num) 0 0

/-- C2: for every trial count `0 < N` in the `long long` range and every
positive thread count (hence in particular the hard-coded 8 of variant 1 and
4 of variant 2), the `pi` field of both the sequential and the parallel
sampler lies in the closed interval `[0, 4]`. -/
theorem pi_entre_cero_y_cuatro (rng : ℕ → ℕ) (vals : ℕ → ℕ → ℚ) (n T : ℕ)
    (hn : 0 < n) (hn2 : (n : ℤ) < 2 ^ 64) (hT : 0 < T) (i1 f1 i2 f2 : ℚ) :
    (0 ≤ (montecarlo_secuencial rng (n : ℤ) i1 f1).pi ∧
      (montecarlo_secuencial rng (n : ℤ) i1 f1).pi ≤ 4) ∧
    (0 ≤ (montecarlo_paralelo_gen vals T (n : ℤ) i2 f2).pi ∧
      (montecarlo_paralelo_gen vals T (n : ℤ) i2 f2).pi ≤ 4) := by
  unfold montecarlo_secuencial montecarlo_paralelo_gen
  rw [iteraciones_secuencial_natCast n hn2, iteraciones_paralelo_natCast n]
  push_cast
  exact ⟨pi_formula_en_rango _ n (bucle_secuencial_le rng n) hn,
    pi_formula_en_rango _ n (hits_paralelo_le vals n T hT) hn⟩

/-- C2 (witness). -/
theorem pi_entre_cero_y_cuatro_testigo :
    (0 ≤ (montecarlo_secuencial (fun _ => 0) ((3 : ℕ) : ℤ) 0 0).pi ∧
      (montecarlo_secuencial (fun _ => 0) ((3 : ℕ) : ℤ) 0 0).pi ≤ 4) ∧
    (0 ≤ (montecarlo_paralelo_gen (fun _ _ => 0) 4 ((3 : ℕ) : ℤ) 0 0).pi ∧
      (montecarlo_paralelo_gen (fun _ _ => 0) 4 ((3 : ℕ) : ℤ) 0 0).pi ≤ 4) :=
  pi_entre_cero_y_cuatro (fun _ => 0) (fun _ _ => 0) 3 4 (by norm_num) (by norm_num)
    (by norm_num) 0 0 0 0

/-- C3: the parallel total is exactly the integer sum of the per-thread
partial counts, the combining operation is order-independent (any permutation
of the contributions yields the same total), and the integer sum casts to the
exact rational sum, so no rounding error is possible. -/
theorem reduccion_exacta_conmutativa (vals : ℕ → ℕ → ℚ) (n T : ℕ)
    (l₁ l₂ : List ℕ) (hp : l₁.Perm l₂) :
    hits_paralelo vals n T = reduccion (parciales vals n T) ∧
    reduccion l₁ = reduccion l₂ ∧
    (reduccion l₁ : ℚ) = (l₁.map (Nat.cast : ℕ → ℚ)).sum := by
  refine ⟨hits_paralelo_eq_reduccion vals n T, hp.sum_eq, ?_⟩
  unfold reduccion
  exact Nat.cast_list_sum l₁

/-- C3 (witness). -/
theorem reduccion_exacta_conmutativa_testigo :
    hits_paralelo (fun _ _ => 0) 4 2 = reduccion (parciales (fun _ _ => 0) 4 2) ∧
    reduccion [1, 2, 3] = reduccion [3, 1, 2] ∧
    (reduccion [1, 2, 3] : ℚ) = ([1, 2, 3].map (Nat.cast : ℕ → ℚ)).sum :=
  reduccion_exacta_conmutativa (fun _ _ => 0) 4 2 [1, 2, 3] [3, 1, 2] (by decide)

/-- C4: for every trial count `n` and every positive thread count `T`
(including 1, 4 and 8), the static partition assigns each of the `n` loop
indices to exactly one thread: the concatenation of the per-thread blocks is
precisely the index list `0, ..., n-1`, and the per-thread trial counts sum
to `n`. -/
theorem particion_exacta (n T : ℕ) (hT : 0 < T) :
    (trozos n T).flatten = List.range n ∧ reduccion (longitudes n T) = n := by
  constructor
  · unfold trozos
    rw [trozos_aux_flatten, suma_longitudes n T hT, List.range_eq_range']
  · unfold reduccion
    exact suma_longitudes n T hT

/-- C4 (witness). -/
theorem particion_exacta_testigo :
    (trozos 10 4).flatten = List.range 10 ∧ reduccion (longitudes 10 4) = 10 :=
  particion_exacta 10 4 (by norm_num)

/-- C5 (counterexample): in variant 2 the seeds `xi[j] = rand() % 10000 + 1`
of distinct workers need not be distinct: on a `rand` stream that returns `0`
for the first two calls, workers 0 and 1 both receive seed `1`, so the
worker-to-seed map is not injective. -/
theorem semillas_v2_colision : ¬ reclamo_semillas_distintas := by
  intro h
  exact h (fun _ => 0) 0 1 (by norm_num) (by norm_num) (by norm_num) (by decide)

/-- C5 (amended): in both variants every worker re-seeds a generator of its
own from its assigned seed.  In variant 1 (mt19937) the worker-to-seed map
`seed_base ^ (tid + 1) * 0x9e3779b9` is injective on the 8 thread ids for
every shared base seed; in variant 2 the seeds come from `rand() % 10000 + 1`
and distinct workers can collide, as the counterexample shows. -/
theorem semilla_hilo_inyectiva (seed_base t1 t2 : ℕ) (h1 : t1 < 8) (h2 : t2 < 8)
    (hne : t1 ≠ t2) : semilla_hilo seed_base t1 ≠ semilla_hilo seed_base t2 := by
  unfold semilla_hilo
  intro h
  have h' : (t1 + 1) * CONSTANTE_DORADA % 2 ^ 32
      = (t2 + 1) * CONSTANTE_DORADA % 2 ^ 32 := by
    calc (t1 + 1) * CONSTANTE_DORADA % 2 ^ 32
        = seed_base ^^^ (seed_base ^^^ (t1 + 1) * CONSTANTE_DORADA % 2 ^ 32) :=
          (Nat.xor_cancel_left _ _).symm
      _ = seed_base ^^^ (seed_base ^^^ (t2 + 1) * CONSTANTE_DORADA % 2 ^ 32) := by
          rw [h]
      _ = (t2 + 1) * CONSTANTE_DORADA % 2 ^ 32 := Nat.xor_cancel_left _ _
  exact dorada_inyectiva_mod t1 h1 t2 h2 hne h'

/-- C5 (witness). -/
theorem semilla_hilo_inyectiva_testigo : semilla_hilo 0 0 ≠ semilla_hilo 0 1 :=
  semilla_hilo_inyectiva 0 0 1 (by norm_num) (by norm_num) (by norm_num)

/-- C6 (counterexample): the seed derivation is not always outside the timed
interval.  In variant 1 the first `omp_get_wtime` read (line 134) precedes
both the `random_device` read of `seed_base` (lines 137-138) and the
per-thread seed derivation inside the parallel region (line 151), so the
claimed ordering fails for that variant. -/
theorem semillas_tras_cronometro_v1 : ¬ reclamo_semillas_antes_cronometro := by
  decide

/-- C6 (amended): variant 2 generates the whole per-worker seed array before
the first `omp_get_wtime` read, so there the seed derivation is excluded from
the measured interval; variant 1 instead starts the timer first and derives
`seed_base` and the per-thread seeds inside the measured interval. -/
theorem orden_semillas_cronometro :
    antes PasoParalelo.inicia_cronometro PasoParalelo.genera_semillas traza_paralelo ∧
    antes PasoParalelo.genera_semillas PasoParalelo.inicia_cronometro traza_paralelo_v2 := by
  decide

/-- C7: the samplers validate nothing: the `pi` division's divisor is the raw
trial count, so with `0 < N` the division is well defined and produces
exactly the sampler's `pi` field (for both samplers), while at `N = 0` the
same expression is reached with a zero divisor and defines no value. -/
theorem division_pi_sin_validacion (rng : ℕ → ℕ) (vals : ℕ → ℕ → ℚ)
    (i1 f1 i2 f2 : ℚ) (n : ℤ) :
    (0 < n →
      division_pi (bucle_secuencial rng (iteraciones_secuencial n)) n
          = some ((montecarlo_secuencial rng n i1 f1).pi) ∧
      division_pi (hits_paralelo vals (iteraciones_paralelo n) 8) n
          = some ((montecarlo_paralelo vals n i2 f2).pi)) ∧
    division_pi (bucle_secuencial rng (iteraciones_secuencial 0)) 0 = none ∧
    division_pi (hits_paralelo vals (iteraciones_paralelo 0) 8) 0 = none := by
  refine ⟨fun hn => ?_, ?_, ?_⟩
  · have hne : n ≠ 0 := by omega
    unfold division_pi montecarlo_secuencial montecarlo_paralelo montecarlo_paralelo_gen
    simp [hne]
  · simp [division_pi]
  · simp [division_pi]

/-- C7 (witness). -/
theorem division_pi_sin_validacion_testigo :
    division_pi (bucle_secuencial (fun _ => 0) (iteraciones_secuencial 3)) 3
      = some ((montecarlo_secuencial (fun _ => 0) 3 0 0).pi) :=
  ((division_pi_sin_validacion (fun _ => 0) (fun _ _ => 0) 0 0 0 0 3).1 (by norm_num)).1

/-- C8: with the file open, a fresh-mode call writes exactly the header row
followed by exactly the two data rows, sequential first then parallel,
discarding any previous content; an append-mode call adds exactly those two
data rows after the existing content and writes no header row. -/
theorem guardar_csv_filas (secuencial paralelo : ResultadoMontecarlo)
    (nombre : String) (archivo : List String) :
    guardar_csv secuencial paralelo nombre true true archivo
        = ([cabecera_csv, fila_csv secuencial "Secuencial",
            fila_csv paralelo "Paralelo"], []) ∧
    guardar_csv secuencial paralelo nombre false true archivo
        = (archivo ++ [fila_csv secuencial "Secuencial",
            fila_csv paralelo "Paralelo"], []) := by
  constructor <;> rfl

/-- C9: when the target file cannot be opened, `guardar_csv` prints the
diagnostic and returns leaving the file content exactly as it was (the
function is total, so no exception escapes); and the driver's exit code is
the literal `0` for every input, so every normally-terminating run exits
with code 0. -/
theorem guardar_csv_fallo_apertura_y_salida_cero :
    (∀ (secuencial paralelo : ResultadoMontecarlo) (nombre : String)
        (primera : Bool) (archivo : List String),
      guardar_csv secuencial paralelo nombre primera false archivo
        = (archivo, [mensaje_error_archivo nombre])) ∧
    (∀ (arg : Option ℤ) (rngs : ℕ → ℕ → ℕ) (valss : ℕ → ℕ → ℕ → ℚ)
        (abiertos : ℕ → Bool) (archivo0 : List String),
      (main_montecarlo arg rngs valss abiertos archivo0).2 = 0) := by
  exact ⟨fun _ _ _ _ _ => rfl, fun _ _ _ _ _ => rfl⟩

/-- C10: for every negative trial count representable in `long long`, the
parallel loop executes zero trials while the sequential loop's unsigned
comparison yields a trip count of exactly `2^64 + N`, which is positive, so
the two samplers disagree on negative input. -/
theorem muestras_negativas_divergen (n : ℤ) (hneg : n < 0) (hmin : -(2 ^ 63) ≤ n) :
    iteraciones_paralelo n = 0 ∧
    iteraciones_secuencial n = (2 ^ 64 + n).toNat ∧
    0 < iteraciones_secuencial n := by
  have hmod : n % (2 ^ 64 : ℤ) = 2 ^ 64 + n := by omega
  refine ⟨?_, ?_, ?_⟩
  · unfold iteraciones_paralelo
    omega
  · unfold iteraciones_secuencial
    rw [hmod]
  · unfold iteraciones_secuencial
    rw [hmod]
    omega

/-- C10 (witness). -/
theorem muestras_negativas_divergen_testigo :
    iteraciones_paralelo (-5) = 0 ∧
    iteraciones_secuencial (-5) = ((2 : ℤ) ^ 64 + -5).toNat ∧
    0 < iteraciones_secuencial (-5) :=
  muestras_negativas_divergen (-5) (by norm_num) (by norm_num)
